import Mathlib

/-!
Shallow embedding of the Gotham-picks odds proxy (api/odds.js, the two
variants of api/events/[id].js) together with proofs about its cache,
key derivation, TTL computation and response transformation.

Modelling conventions:
* JSON values are the inductive `Json`; `JSON.stringify` is `stringify`.
  `JSON.parse` is modelled as an input of the handler: the upstream body
  arrives as the raw text together with its parse outcome
  (`UpstreamOutcome.response status text parsed`), `parsed = none` meaning
  `JSON.parse` would throw for that text.
* JavaScript numbers are modelled exactly by `ℚ` (every value reached by
  the claims — decimal literals of moderate size — is float-exact).
  `Number(...)` on strings is modelled for optionally signed decimal
  literals; other inputs (hex, exponents, `Infinity`, whitespace) map to
  `JSNum.nan`, which coincides with the JS result of `| 0` on them (0).
* The two `Date.now()` calls of a single handler run (freshness check and
  store) are modelled as one instant `now`; no claim depends on the time
  elapsed during the upstream fetch.
* The in-memory `Map` is an association list; `Map.set` overwrites.
-/

inductive Json where
  | null
  | bool (b : Bool)
  | num (q : ℚ)
  | str (s : String)
  | arr (elems : List Json)
  | obj (fields : List (String × Json))

/-- JSON string escaping for the characters that can occur in this
development; fidelity of the full escape table is not relied upon. -/
def escapeString (s : String) : String :=
  s.data.foldl
    (fun acc c =>
      if c = '"' then acc ++ "\\\""
      else if c = '\\' then acc ++ "\\\\"
      else if c = '\n' then acc ++ "\\n"
      else acc ++ String.singleton c) ""

/-- Rendering of JSON numbers. Integers render as in JS; the rendering of
non-integral rationals is a placeholder no theorem relies on. -/
def stringifyNum (q : ℚ) : String :=
  if q.den = 1 then toString q.num else toString q.num ++ "/" ++ toString q.den

mutual

/-- `JSON.stringify`. -/
def stringify : Json → String
  | .null => "null"
  | .bool b => if b then "true" else "false"
  | .num q => stringifyNum q
  | .str s => "\"" ++ escapeString s ++ "\""
  | .arr xs => "[" ++ stringifyElems xs ++ "]"
  | .obj fs => "\x7b" ++ stringifyFields fs ++ "\x7d"

def stringifyElems : List Json → String
  | [] => ""
  | [x] => stringify x
  | x :: y :: xs => stringify x ++ "," ++ stringifyElems (y :: xs)

def stringifyFields : List (String × Json) → String
  | [] => ""
  | [(k, v)] => "\"" ++ escapeString k ++ "\":" ++ stringify v
  | (k, v) :: f :: fs =>
      "\"" ++ escapeString k ++ "\":" ++ stringify v ++ "," ++ stringifyFields (f :: fs)

end

/-- JS truthiness of a JSON value. -/
def jsTruthy : Json → Bool
  | .null => false
  | .bool b => b
  | .num q => decide (q ≠ 0)
  | .str s => s ≠ ""
  | .arr _ => true
  | .obj _ => true

/-- JS property read `v[k]`: `none` is `undefined`. Arrays and primitives
have no named data properties relevant here. -/
def getField : Json → String → Option Json
  | .obj fs, k => (fs.find? (fun p => p.1 == k)).map (·.2)
  | _, _ => none

/-- The fields contributed by object spread `\x7b...v\x7d`: objects give their
fields, arrays and strings their indexed elements, primitives nothing. -/
def spreadFields : Json → List (String × Json)
  | .obj fs => fs
  | .arr xs => xs.enum.map (fun p => (toString p.1, p.2))
  | .str s => s.data.enum.map (fun p => (toString p.1, Json.str (String.singleton p.2)))
  | _ => []

/-- Object literal `\x7b ...spread, k: v \x7d`: an existing key keeps its
position with the new value, a new key is appended. -/
def setField (fs : List (String × Json)) (k : String) (v : Json) : List (String × Json) :=
  if fs.any (fun p => p.1 == k) then
    fs.map (fun p => if p.1 == k then (p.1, v) else p)
  else fs ++ [(k, v)]

/-- The NY-licensed bookmaker allow-list (`NY_BOOK_TITLES` in the source). -/
def NY_BOOK_TITLES : List String :=
  ["DraftKings", "FanDuel", "BetMGM", "Caesars", "BetRivers", "Resorts World Bet"]

/-- `NY_BOOK_TITLES.has(bm.title)`: true only when `title` is a string in
the allow-list (the `Set` contains only strings). -/
def isAllowedBook (bm : Json) : Bool :=
  match getField bm "title" with
  | some (.str t) => NY_BOOK_TITLES.contains t
  | _ => false

/-- `evt.bookmakers || []`. -/
def booksOrEmpty (evt : Json) : Json :=
  match getField evt "bookmakers" with
  | some v => if jsTruthy v then v else Json.arr []
  | none => Json.arr []

/-- `(evt.bookmakers || []).filter(bm => NY_BOOK_TITLES.has(bm.title))`:
calling `.filter` on a truthy non-array throws (`Except.error`). -/
def filterBooks (evt : Json) : Except Unit (List Json) :=
  match booksOrEmpty evt with
  | .arr xs => .ok (xs.filter isAllowedBook)
  | _ => .error ()

/-- JS `.length`: defined for arrays and strings, `undefined` otherwise. -/
def jsLength : Json → Option Nat
  | .arr xs => some xs.length
  | .str s => some s.length
  | _ => none

/-- `(evt.bookmakers || []).length > 0` (`undefined > 0` is false). -/
def keepEvt (evt : Json) : Bool :=
  match jsLength (booksOrEmpty evt) with
  | some n => decide (0 < n)
  | none => false

/-- One step of the `map` in `filterToNY`: `\x7b ...evt, bookmakers: books \x7d`. -/
def transformEvt (evt : Json) : Except Unit Json :=
  (filterBooks evt).map
    (fun books => Json.obj (setField (spreadFields evt) "bookmakers" (Json.arr books)))

/-- `filterToNY` from api/odds.js: coerce non-arrays to `[]`, filter each
event's bookmakers to the allow-list, drop events with no NY books. -/
def filterToNY (json : Json) : Except Unit (List Json) := do
  let arrIn : List Json := match json with | .arr xs => xs | _ => []
  let mapped ← arrIn.mapM transformEvt
  pure (mapped.filter keepEvt)

/-- `Array.isArray(evt.bookmakers)`. -/
def isBookmakersArray (evt : Json) : Bool :=
  match getField evt "bookmakers" with
  | some (.arr _) => true
  | _ => false

/-- `filterEventToNY` from the filtering variant of api/events/[id].js
(src/unnamed/part_000): missing or non-array bookmakers become `[]`,
otherwise the bookmakers are filtered to the allow-list; the event itself
is always returned. -/
def filterEventToNY (json : Json) : Json :=
  if !(jsTruthy json) || !(isBookmakersArray json) then
    Json.obj (setField (spreadFields json) "bookmakers" (Json.arr []))
  else
    match getField json "bookmakers" with
    | some (.arr bs) =>
        Json.obj (setField (spreadFields json) "bookmakers" (Json.arr (bs.filter isAllowedBook)))
    | _ => Json.obj (setField (spreadFields json) "bookmakers" (Json.arr []))

/-- 2xx body production of api/odds.js: `JSON.parse` throwing (`none`) or a
throwing filter propagates as an error. -/
def transformCollection (parsed : Option Json) : Except Unit String :=
  match parsed with
  | none => .error ()
  | some data => (filterToNY data).map (fun out => stringify (Json.arr out))

/-- 2xx body production of src/api/events/[id].js: wrap the parsed object
in a one-element array, no filtering. -/
def transformSingleWrap (parsed : Option Json) : Except Unit String :=
  match parsed with
  | none => .error ()
  | some data => .ok (stringify (Json.arr [data]))

/-- 2xx body production of the filtering variant (src/unnamed/part_000). -/
def transformSingleFilter (parsed : Option Json) : Except Unit String :=
  match parsed with
  | none => .error ()
  | some data => .ok (stringify (filterEventToNY data))

/-- `cacheKey(path, query)`: strip `apiKey`, serialize the rest. The query
object is an insertion-ordered association list (JS objects are duplicate
free; `delete q.apiKey` is modelled as removing every `apiKey` entry). -/
def cacheKey (path : String) (query : List (String × String)) : String :=
  let q := query.filter (fun p => p.1 != "apiKey")
  path ++ "?" ++ stringify (Json.obj (q.map (fun p => (p.1, Json.str p.2))))

structure CacheEntry where
  ts : Int
  status : Nat
  body : String
deriving DecidableEq

/-- The module-level `_mem` Map. -/
abbrev Cache := List (String × CacheEntry)

def cacheGet (m : Cache) (k : String) : Option CacheEntry :=
  (m.find? (fun p => p.1 == k)).map (·.2)

def cacheSet (m : Cache) (k : String) (v : CacheEntry) : Cache :=
  (k, v) :: m.filter (fun p => p.1 != k)

/-- Result of `Number(...)` (NaN and ±Infinity are collapsed into `nan`:
`| 0` sends all of them to 0). -/
inductive JSNum where
  | nan
  | num (q : ℚ)

def digitsToNat (cs : List Char) : Nat :=
  cs.foldl (fun a c => a * 10 + (c.toNat - 48)) 0

/-- `Number(s)` for an unsigned decimal literal `digits[.digits]`
(at least one digit); anything else is `none`. -/
def parseUnsigned (cs : List Char) : Option ℚ :=
  let ip := cs.takeWhile (·.isDigit)
  let rest := cs.dropWhile (·.isDigit)
  match rest with
  | [] => if ip.isEmpty then none else some (digitsToNat ip : ℚ)
  | '.' :: fp =>
      if fp.all (·.isDigit) && (!ip.isEmpty || !fp.isEmpty) then
        some ((digitsToNat ip : ℚ) + (digitsToNat fp : ℚ) / (10 ^ fp.length : ℚ))
      else none
  | _ => none

/-- `Number(s)` on a non-empty string, restricted to optionally signed
decimal literals (see the module comment). -/
def numberOfString (s : String) : JSNum :=
  match s.data with
  | '-' :: rest => match parseUnsigned rest with | some q => .num (-q) | none => .nan
  | '+' :: rest => match parseUnsigned rest with | some q => .num q | none => .nan
  | cs => match parseUnsigned cs with | some q => .num q | none => .nan

/-- Truncation toward zero, the integer part of a JS number. -/
def ratTrunc (q : ℚ) : Int :=
  if 0 ≤ q then ⌊q⌋ else -⌊-q⌋

/-- JS `x | 0`, i.e. ToInt32. -/
def toInt32 : JSNum → Int
  | .nan => 0
  | .num q => (ratTrunc q + 2 ^ 31) % 2 ^ 32 - 2 ^ 31

def DEFAULT_TTL : Int := 60

/-- `Number(ttl || DEFAULT_TTL)`: an absent or empty (falsy) `ttl`
parameter falls back to the numeric constant 60. -/
def coerceTTL (ttl : Option String) : JSNum :=
  match ttl with
  | none => .num (DEFAULT_TTL : ℚ)
  | some s => if s = "" then .num (DEFAULT_TTL : ℚ) else numberOfString s

/-- `const TTL = Math.max(10, Number(ttl || DEFAULT_TTL) | 0)`. -/
def effectiveTTL (ttl : Option String) : Int :=
  max 10 (toInt32 (coerceTTL ttl))

/-- `Math.round(ttl/2)` for an integer `ttl`. -/
def jsRoundHalf (ttl : Int) : Int := (ttl + 1).fdiv 2

structure Headers where
  cacheControl : String
  contentType : String
  allowOrigin : String
deriving DecidableEq

/-- `setCachingHeaders(res, ttl)`. -/
def setCachingHeaders (ttl : Int) : Headers :=
  { cacheControl :=
      "s-maxage=" ++ toString ttl ++ ", stale-while-revalidate=" ++ toString (jsRoundHalf ttl)
    contentType := "application/json; charset=utf-8"
    allowOrigin := "*" }

structure HttpResponse where
  status : Nat
  body : String
  headers : Headers
deriving DecidableEq

/-- Outcome of `await fetch` + `await r.text()` (+ the parse outcome of the
text, see the module comment). `transportFail` is a transport-level fault. -/
inductive UpstreamOutcome where
  | transportFail
  | response (status : Nat) (text : String) (parsed : Option Json)

/-- `res.status(500).json(\x7b error: 'Proxy error' \x7d)` preceded by
`setCachingHeaders(res, 10)`. -/
def proxyError : HttpResponse :=
  { status := 500
    body := "\x7b\"error\":\"Proxy error\"\x7d"
    headers := setCachingHeaders 10 }

/-- The freshness test `(Date.now() - hit.ts) / 1000 < TTL`. -/
def freshQ (now ts ttl : Int) : Prop :=
  ((now - ts : ℤ) : ℚ) / 1000 < (ttl : ℚ)

instance (now ts ttl : Int) : Decidable (freshQ now ts ttl) := by
  unfold freshQ; infer_instance

/-- `let body = text; if (2xx) body = <transform>`. -/
def responseBody (transformBody : Option Json → Except Unit String)
    (status : Nat) (text : String) (parsed : Option Json) : Except Unit String :=
  if 200 ≤ status ∧ status < 300 then transformBody parsed else .ok text

/-- The fetch-transform-store-respond tail of a handler run (everything
after a cache miss), including the surrounding try/catch. -/
def proxyFetch (transformBody : Option Json → Except Unit String) (TTL : Int)
    (key : String) (mem : Cache) (now : Int) (up : UpstreamOutcome) :
    HttpResponse × Cache :=
  match up with
  | .transportFail => (proxyError, mem)
  | .response status text parsed =>
      match responseBody transformBody status text parsed with
      | .error _ => (proxyError, mem)
      | .ok body =>
          ({ status := status, body := body, headers := setCachingHeaders TTL },
           cacheSet mem key { ts := now, status := status, body := body })

/-- The shared handler shape of the three source handlers: TTL, key, warm
cache check, then fetch/transform/store. -/
def runProxy (transformBody : Option Json → Except Unit String) (path : String)
    (query : List (String × String)) (ttlParam : Option String)
    (mem : Cache) (now : Int) (up : UpstreamOutcome) : HttpResponse × Cache :=
  let TTL := effectiveTTL ttlParam
  let key := cacheKey path query
  match cacheGet mem key with
  | some hit =>
      if freshQ now hit.ts TTL then
        ({ status := hit.status, body := hit.body, headers := setCachingHeaders TTL }, mem)
      else proxyFetch transformBody TTL key mem now up
  | none => proxyFetch transformBody TTL key mem now up

/-- Query of api/odds.js (`none` is an absent parameter; destructuring
defaults are applied at use). -/
structure OddsQuery where
  sport : Option String
  regions : Option String
  markets : Option String
  oddsFormat : Option String
  ttl : Option String

def oddsParams (req : OddsQuery) : List (String × String) :=
  [("sport", req.sport.getD "americanfootball_nfl"),
   ("regions", req.regions.getD "us"),
   ("markets", req.markets.getD "h2h,spreads,totals"),
   ("oddsFormat", req.oddsFormat.getD "american")]

def oddsKey (req : OddsQuery) : String := cacheKey "odds" (oddsParams req)

/-- The api/odds.js handler. -/
def handlerOdds (req : OddsQuery) (mem : Cache) (now : Int) (up : UpstreamOutcome) :
    HttpResponse × Cache :=
  runProxy transformCollection "odds" (oddsParams req) req.ttl mem now up

/-- Query of the two api/events/[id].js variants. An absent `id`
interpolates as the string "undefined" in the key path. -/
structure EventQuery where
  id : Option String
  sport : Option String
  regions : Option String
  markets : Option String
  oddsFormat : Option String
  ttl : Option String

def eventParams (req : EventQuery) : List (String × String) :=
  [("sport", req.sport.getD "americanfootball_nfl"),
   ("regions", req.regions.getD "us"),
   ("markets", req.markets.getD
      "player_pass_yds,player_pass_tds,player_rush_yds,player_reception_yds,player_anytime_td"),
   ("oddsFormat", req.oddsFormat.getD "american")]

def eventPath (req : EventQuery) : String := "events/" ++ req.id.getD "undefined"

def eventKey (req : EventQuery) : String := cacheKey (eventPath req) (eventParams req)

/-- The src/api/events/[id].js handler (wraps, does not filter). -/
def handlerEventWrap (req : EventQuery) (mem : Cache) (now : Int) (up : UpstreamOutcome) :
    HttpResponse × Cache :=
  runProxy transformSingleWrap (eventPath req) (eventParams req) req.ttl mem now up

/-- The src/unnamed/part_000 handler (filters via `filterEventToNY`). -/
def handlerEventFilter (req : EventQuery) (mem : Cache) (now : Int) (up : UpstreamOutcome) :
    HttpResponse × Cache :=
  runProxy transformSingleFilter (eventPath req) (eventParams req) req.ttl mem now up

/-- Prefix test on character lists, used to express substring occurrence. -/
def isStartOf : List Char → List Char → Bool
  | [], _ => true
  | _ :: _, [] => false
  | a :: as, b :: bs => a == b && isStartOf as bs

def occursInList (nd : List Char) : List Char → Bool
  | [] => isStartOf nd []
  | c :: cs => isStartOf nd (c :: cs) || occursInList nd cs

/-- Substring occurrence of `needle` in `hay`. -/
def occursIn (needle hay : String) : Bool := occursInList needle.data hay.data

/-! Concrete sample values used in witnesses and counterexamples. -/

/-- An allow-listed bookmaker. -/
def bmFanDuel : Json := Json.obj [("title", Json.str "FanDuel")]

/-- A bookmaker whose title is not in the allow-list. -/
def bmBet365 : Json := Json.obj [("title", Json.str "Bet365")]

/-- An event carrying one allow-listed and one other bookmaker. -/
def evtSample : Json :=
  Json.obj [("home", Json.str "NYG"), ("bookmakers", Json.arr [bmFanDuel, bmBet365])]

/-- An event carrying only a non-allow-listed bookmaker. -/
def evtNoNY : Json :=
  Json.obj [("home", Json.str "BUF"), ("bookmakers", Json.arr [bmBet365])]

/-- A request to the collection endpoint with every parameter absent. -/
def reqSample : OddsQuery := ⟨none, none, none, none, none⟩

/-- A request to the single-event endpoint for event id "e1". -/
def ereqSample : EventQuery := ⟨some "e1", none, none, none, none, none⟩

/-- A non-2xx upstream body (the synthetic 404 of the spec). -/
def notFoundBody : String := "\x7b\"message\":\"not found\"\x7d"

/-! Helper lemmas shared by the claim theorems. -/

theorem freshQ_iff (now ts ttl : Int) : freshQ now ts ttl ↔ now - ts < ttl * 1000 := by
  unfold freshQ
  rw [div_lt_iff₀ (by norm_num : (0:ℚ) < 1000)]
  exact_mod_cast Iff.rfl

theorem ratTrunc_natCast (n : ℕ) : ratTrunc (n : ℚ) = n := by
  unfold ratTrunc
  rw [if_pos (by positivity)]
  exact Int.floor_natCast n

theorem ratTrunc_decimal (a b k : ℕ) (h : b < 10 ^ k) :
    ratTrunc ((a : ℚ) + (b : ℚ) / (10 : ℚ) ^ k) = a := by
  unfold ratTrunc
  rw [if_pos (by positivity)]
  have hfrac : ⌊(b : ℚ) / (10 : ℚ) ^ k⌋ = 0 := by
    rw [Int.floor_eq_zero_iff]
    constructor
    · positivity
    · rw [div_lt_one (by positivity)]
      exact_mod_cast h
  rw [Int.floor_nat_add, hfrac, add_zero]

theorem ratTrunc_nonpos (q : ℚ) (h : q ≤ 0) : ratTrunc q ≤ 0 := by
  unfold ratTrunc
  by_cases h0 : 0 ≤ q
  · rw [if_pos h0]
    have : q = 0 := le_antisymm h h0
    subst this
    simp
  · rw [if_neg h0]
    have hq : 0 ≤ -q := by linarith
    have := Int.floor_nonneg.mpr hq
    omega

theorem int32_of_inrange (t : Int) (h1 : -(2^31) ≤ t) (h2 : t < 2^31) :
    (t + 2^31) % 2^32 - 2^31 = t := by
  omega

theorem int32_of_high (t : Int) (h1 : 2^31 ≤ t) (h2 : t < 2^32) :
    (t + 2^31) % 2^32 - 2^31 = t - 2^32 := by
  omega

theorem effTTL_ofNum (s : String) (q : ℚ) (hs : s ≠ "")
    (h : numberOfString s = JSNum.num q) :
    effectiveTTL (some s) = max 10 (((ratTrunc q + 2^31) % 2^32) - 2^31) := by
  simp only [effectiveTTL, coerceTTL, if_neg hs, h, toInt32]

theorem effTTL_ofNan (s : String) (hs : s ≠ "")
    (h : numberOfString s = JSNum.nan) : effectiveTTL (some s) = 10 := by
  simp only [effectiveTTL, coerceTTL, if_neg hs, h, toInt32]
  decide

theorem effTTL_none : effectiveTTL none = 60 := by
  unfold effectiveTTL coerceTTL toInt32 DEFAULT_TTL ratTrunc
  norm_num

theorem effTTL_empty : effectiveTTL (some "") = 60 := effTTL_none

theorem cacheGet_cacheSet (m : Cache) (k : String) (v : CacheEntry) :
    cacheGet (cacheSet m k v) k = some v := by
  unfold cacheGet cacheSet
  simp [List.find?_cons]

theorem runProxy_miss (tb : Option Json → Except Unit String) (path : String)
    (query : List (String × String)) (ttlParam : Option String) (mem : Cache)
    (now : Int) (up : UpstreamOutcome)
    (hmiss : cacheGet mem (cacheKey path query) = none) :
    runProxy tb path query ttlParam mem now up
      = proxyFetch tb (effectiveTTL ttlParam) (cacheKey path query) mem now up := by
  unfold runProxy
  dsimp only
  rw [hmiss]

theorem runProxy_hit (tb : Option Json → Except Unit String) (path : String)
    (query : List (String × String)) (ttlParam : Option String) (mem : Cache)
    (now : Int) (up : UpstreamOutcome) (hit : CacheEntry)
    (hhit : cacheGet mem (cacheKey path query) = some hit)
    (hfresh : freshQ now hit.ts (effectiveTTL ttlParam)) :
    runProxy tb path query ttlParam mem now up
      = ({ status := hit.status, body := hit.body,
           headers := setCachingHeaders (effectiveTTL ttlParam) }, mem) := by
  unfold runProxy
  dsimp only
  rw [hhit]
  simp only [if_pos hfresh]

theorem runProxy_stale (tb : Option Json → Except Unit String) (path : String)
    (query : List (String × String)) (ttlParam : Option String) (mem : Cache)
    (now : Int) (up : UpstreamOutcome) (hit : CacheEntry)
    (hhit : cacheGet mem (cacheKey path query) = some hit)
    (hstale : ¬ freshQ now hit.ts (effectiveTTL ttlParam)) :
    runProxy tb path query ttlParam mem now up
      = proxyFetch tb (effectiveTTL ttlParam) (cacheKey path query) mem now up := by
  unfold runProxy
  dsimp only
  rw [hhit]
  simp only [if_neg hstale]

theorem proxyFetch_fault (tb : Option Json → Except Unit String) (TTL : Int)
    (key : String) (mem : Cache) (now : Int) (up : UpstreamOutcome)
    (hfault : up = .transportFail ∨
      ∃ status text parsed, up = .response status text parsed ∧
        responseBody tb status text parsed = .error ()) :
    proxyFetch tb TTL key mem now up = (proxyError, mem) := by
  rcases hfault with h | ⟨status, text, parsed, hup, herr⟩
  · rw [h]; rfl
  · rw [hup]
    unfold proxyFetch
    dsimp only
    rw [herr]

theorem proxyFetch_ok (tb : Option Json → Except Unit String) (TTL : Int)
    (key : String) (mem : Cache) (now : Int) (status : Nat) (text : String)
    (parsed : Option Json) (body : String)
    (hok : responseBody tb status text parsed = .ok body) :
    proxyFetch tb TTL key mem now (.response status text parsed)
      = ({ status := status, body := body, headers := setCachingHeaders TTL },
         cacheSet mem key { ts := now, status := status, body := body }) := by
  unfold proxyFetch
  dsimp only
  rw [hok]

theorem responseBody_passthrough (tb : Option Json → Except Unit String) (status : Nat)
    (text : String) (parsed : Option Json) (hs : ¬ (200 ≤ status ∧ status < 300)) :
    responseBody tb status text parsed = .ok text := by
  unfold responseBody
  rw [if_neg hs]

theorem responseBody_2xx (tb : Option Json → Except Unit String) (status : Nat)
    (text : String) (parsed : Option Json) (h2 : 200 ≤ status) (h3 : status < 300) :
    responseBody tb status text parsed = tb parsed := by
  unfold responseBody
  rw [if_pos ⟨h2, h3⟩]

theorem mapM_ok_forall₂ (l r : List Json) (h : l.mapM transformEvt = .ok r) :
    List.Forall₂ (fun e t => transformEvt e = .ok t) l r := by
  induction l generalizing r with
  | nil =>
      simp only [List.mapM_nil, pure, Except.pure] at h
      cases h
      exact List.Forall₂.nil
  | cons a l ih =>
      rw [List.mapM_cons] at h
      cases ha : transformEvt a with
      | error e => rw [ha] at h; simp [Bind.bind, Except.bind] at h
      | ok t =>
          rw [ha] at h
          cases hl : l.mapM transformEvt with
          | error e =>
              rw [hl] at h
              simp [Bind.bind, Except.bind] at h
          | ok r' =>
              rw [hl] at h
              simp only [Bind.bind, Except.bind, pure, Except.pure] at h
              cases h
              exact List.Forall₂.cons ha (ih r' hl)

theorem filterToNY_arr (evts out : List Json) (h : filterToNY (Json.arr evts) = .ok out) :
    ∃ mapped, evts.mapM transformEvt = .ok mapped ∧ out = mapped.filter keepEvt := by
  unfold filterToNY at h
  dsimp only at h
  cases hm : evts.mapM transformEvt with
  | error e => rw [hm] at h; simp [Bind.bind, Except.bind] at h
  | ok mapped =>
      rw [hm] at h
      simp only [Bind.bind, Except.bind, pure, Except.pure] at h
      cases h
      exact ⟨mapped, rfl, rfl⟩

theorem find?_map_set (k : String) (v : Json) (l : List (String × Json))
    (hany : l.any (fun p => p.1 == k) = true) :
    (l.map (fun p => if p.1 == k then (p.1, v) else p)).find? (fun p => p.1 == k)
      = some (k, v) := by
  induction l with
  | nil => cases hany
  | cons p fs ih =>
      rw [List.map_cons]
      by_cases hp : (p.1 == k) = true
      · rw [if_pos hp, List.find?_cons, hp]
        rw [eq_of_beq hp]
      · have hpf : (p.1 == k) = false := by revert hp; cases (p.1 == k) <;> simp
        rw [if_neg hp, List.find?_cons, hpf]
        apply ih
        rw [List.any_cons, hpf] at hany
        simpa using hany

theorem find?_append_set (k : String) (v : Json) (l : List (String × Json))
    (hany : l.any (fun p => p.1 == k) = false) :
    (l ++ [(k, v)]).find? (fun p => p.1 == k) = some (k, v) := by
  induction l with
  | nil =>
      rw [List.nil_append, List.find?_cons, beq_self_eq_true k]
  | cons p fs ih =>
      rw [List.any_cons] at hany
      have h1 : (p.1 == k) = false := by revert hany; cases (p.1 == k) <;> simp
      have h2 : fs.any (fun p => p.1 == k) = false := by
        revert hany; cases fs.any (fun p => p.1 == k) <;> simp
      rw [List.cons_append, List.find?_cons, h1]
      exact ih h2

theorem getField_setField (fs : List (String × Json)) (k : String) (v : Json) :
    getField (Json.obj (setField fs k v)) k = some v := by
  show ((setField fs k v).find? (fun p => p.1 == k)).map (·.2) = some v
  unfold setField
  by_cases hany : fs.any (fun p => p.1 == k)
  · rw [if_pos hany, find?_map_set k v fs hany]
    rfl
  · have hf : fs.any (fun p => p.1 == k) = false := by
      revert hany; cases fs.any (fun p => p.1 == k) <;> simp
    rw [if_neg hany, find?_append_set k v fs hf]
    rfl

theorem filter_map_set_ne (k : String) (v : Json) (l : List (String × Json)) :
    (l.map (fun p => if p.1 == k then (p.1, v) else p)).filter (fun p => p.1 != k)
      = l.filter (fun p => p.1 != k) := by
  induction l with
  | nil => rfl
  | cons p fs ih =>
      rw [List.map_cons]
      by_cases hp : (p.1 == k) = true
      · have hb : (p.1 != k) = false := by simp [bne, hp]
        rw [if_pos hp, List.filter_cons, List.filter_cons]
        rw [if_neg (by simp [bne, hp] : ¬ ((((p.1, v) : String × Json).1 != k) = true))]
        rw [if_neg (by simp [hb] : ¬ ((p.1 != k) = true))]
        exact ih
      · rw [if_neg hp, List.filter_cons, List.filter_cons]
        by_cases hk : (p.1 != k) = true
        · rw [if_pos hk, if_pos hk, ih]
        · rw [if_neg hk, if_neg hk, ih]

theorem setField_filter_ne (fs : List (String × Json)) (k : String) (v : Json) :
    (setField fs k v).filter (fun p => p.1 != k) = fs.filter (fun p => p.1 != k) := by
  unfold setField
  by_cases hany : fs.any (fun p => p.1 == k)
  · rw [if_pos hany]
    exact filter_map_set_ne k v fs
  · rw [if_neg hany, List.filter_append]
    have h1 : ([(k, v)] : List (String × Json)).filter (fun p => p.1 != k) = [] := by
      rw [List.filter_cons]
      rw [if_neg (by simp [bne] : ¬ ((((k, v) : String × Json).1 != k) = true))]
      rfl
    rw [h1, List.append_nil]

theorem keepEvt_setField (fs : List (String × Json)) (books : List Json) :
    keepEvt (Json.obj (setField fs "bookmakers" (Json.arr books)))
      = decide (0 < books.length) := by
  unfold keepEvt booksOrEmpty
  rw [getField_setField]
  rfl

theorem filterBooks_allowed (evt : Json) (books : List Json)
    (h : filterBooks evt = .ok books) : ∀ b ∈ books, isAllowedBook b = true := by
  unfold filterBooks at h
  cases hbe : booksOrEmpty evt <;> rw [hbe] at h <;> dsimp only at h
  case arr xs =>
    cases h
    intro b hb
    exact List.of_mem_filter hb
  all_goals cases h

theorem transformEvt_ok (evt t : Json) (h : transformEvt evt = .ok t) :
    ∃ books, filterBooks evt = .ok books ∧
      t = Json.obj (setField (spreadFields evt) "bookmakers" (Json.arr books)) := by
  unfold transformEvt at h
  cases hb : filterBooks evt <;> rw [hb] at h <;> dsimp only [Except.map] at h
  case error e => cases h
  case ok books =>
    cases h
    exact ⟨books, rfl, rfl⟩

theorem transformEvt_obj (fs : List (String × Json)) (bs : List Json)
    (hb : getField (Json.obj fs) "bookmakers" = some (Json.arr bs)) :
    transformEvt (Json.obj fs)
      = .ok (Json.obj (setField fs "bookmakers" (Json.arr (bs.filter isAllowedBook)))) := by
  unfold transformEvt filterBooks booksOrEmpty
  rw [hb]
  rfl

theorem forall₂_mem_left {R : Json → Json → Prop} {l r : List Json}
    (h : List.Forall₂ R l r) (a : Json) (ha : a ∈ l) : ∃ b ∈ r, R a b := by
  induction h with
  | nil => cases ha
  | cons hR hrest ih =>
      rcases List.mem_cons.mp ha with rfl | ha'
      · exact ⟨_, List.mem_cons_self _ _, hR⟩
      · obtain ⟨b, hb, hRb⟩ := ih ha'
        exact ⟨b, List.mem_cons_of_mem _ hb, hRb⟩

theorem forall₂_mem_right {R : Json → Json → Prop} {l r : List Json}
    (h : List.Forall₂ R l r) (b : Json) (hb : b ∈ r) : ∃ a ∈ l, R a b := by
  induction h with
  | nil => cases hb
  | cons hR hrest ih =>
      rcases List.mem_cons.mp hb with rfl | hb'
      · exact ⟨_, List.mem_cons_self _ _, hR⟩
      · obtain ⟨a, ha, hRa⟩ := ih hb'
        exact ⟨a, List.mem_cons_of_mem _ ha, hRa⟩

theorem isBookmakersArray_iff (j : Json) :
    isBookmakersArray j = true ↔ ∃ bs, getField j "bookmakers" = some (Json.arr bs) := by
  unfold isBookmakersArray
  cases hg : getField j "bookmakers" with
  | none => simp
  | some v => cases v <;> simp

theorem truthy_of_getField (j : Json) (k : String) (v : Json)
    (h : getField j k = some v) : jsTruthy j = true := by
  cases j <;> simp [getField] at h <;> rfl

theorem filterEventToNY_cases (j : Json) :
    (isBookmakersArray j = false ∧
       filterEventToNY j = Json.obj (setField (spreadFields j) "bookmakers" (Json.arr []))) ∨
    (∃ bs, getField j "bookmakers" = some (Json.arr bs) ∧
       filterEventToNY j
         = Json.obj (setField (spreadFields j) "bookmakers"
             (Json.arr (bs.filter isAllowedBook)))) := by
  by_cases hba : isBookmakersArray j = true
  · right
    obtain ⟨bs, hbs⟩ := (isBookmakersArray_iff j).mp hba
    refine ⟨bs, hbs, ?_⟩
    unfold filterEventToNY
    have ht : jsTruthy j = true := truthy_of_getField j "bookmakers" (Json.arr bs) hbs
    rw [ht, hba, hbs]
    rfl
  · left
    have hbf : isBookmakersArray j = false := by
      revert hba; cases isBookmakersArray j <;> simp
    refine ⟨hbf, ?_⟩
    unfold filterEventToNY
    rw [hbf]
    by_cases ht : jsTruthy j = true
    · rw [ht]
      rfl
    · have htf : jsTruthy j = false := by revert ht; cases jsTruthy j <;> simp
      rw [htf]
      rfl

theorem filter_stripKey_idem (q : List (String × String)) :
    (q.filter (fun p => p.1 != "apiKey")).filter (fun p => p.1 != "apiKey")
      = q.filter (fun p => p.1 != "apiKey") := by
  induction q with
  | nil => rfl
  | cons p fs ih =>
      rw [List.filter_cons]
      by_cases hk : (p.1 != "apiKey") = true
      · rw [if_pos hk, List.filter_cons, if_pos hk, ih]
      · rw [if_neg hk, ih]

theorem cacheKey_apiKey_drop (path : String) (q₁ q₂ : List (String × String)) (v : String) :
    cacheKey path (q₁ ++ ("apiKey", v) :: q₂) = cacheKey path (q₁ ++ q₂) := by
  unfold cacheKey
  simp [List.filter_append, List.filter_cons]

/-- C3 counterexample: a non-numeric `ttl` does not fall back to the
60-second default; `Number("abc") | 0` is 0 and the clamp yields the floor
10, refuting "equals the default of 60 seconds when the ttl query
parameter is ... non-numeric/non-positive after coercion". -/
theorem ttl_default_cex :
    effectiveTTL (some "abc") = 10 ∧ effectiveTTL (some "abc") ≠ 60 :=
  ⟨rfl, by decide⟩

/-- C3 (amended): the effective TTL is 60 only when the ttl parameter is
absent or empty; a present non-empty value is numerically coerced (NaN
becoming 0) and truncated, so non-numeric or non-positive values clamp to
the floor 10 rather than the default 60; in-range values ≥ 10 are used as
given (ttl=5 gives 10, ttl=120 gives 120). -/
theorem ttl_clamp_amended (s : String) (q : ℚ) :
    effectiveTTL none = 60 ∧ effectiveTTL (some "") = 60 ∧
    effectiveTTL (some "5") = 10 ∧ effectiveTTL (some "120") = 120 ∧
    (s ≠ "" → numberOfString s = JSNum.nan → effectiveTTL (some s) = 10) ∧
    (numberOfString s = JSNum.num q → ratTrunc q ≤ 0 → -(2^31) ≤ ratTrunc q →
       effectiveTTL (some s) = 10) ∧
    (numberOfString s = JSNum.num q → 10 ≤ ratTrunc q → ratTrunc q < 2^31 →
       effectiveTTL (some s) = ratTrunc q) := by
  refine ⟨effTTL_none, effTTL_empty, ?_, ?_, ?_, ?_, ?_⟩
  · have h : numberOfString "5" = JSNum.num ((5:ℕ) : ℚ) := rfl
    rw [effTTL_ofNum "5" _ (by decide) h, ratTrunc_natCast]
    decide
  · have h : numberOfString "120" = JSNum.num ((120:ℕ) : ℚ) := rfl
    rw [effTTL_ofNum "120" _ (by decide) h, ratTrunc_natCast]
    decide
  · exact fun hs hn => effTTL_ofNan s hs hn
  · intro hn hle hge
    have hs : s ≠ "" := by
      intro h; subst h
      rw [show numberOfString "" = JSNum.nan from rfl] at hn
      exact JSNum.noConfusion hn
    rw [effTTL_ofNum s q hs hn, int32_of_inrange _ hge (by omega)]
    omega
  · intro hn hge hlt
    have hs : s ≠ "" := by
      intro h; subst h
      rw [show numberOfString "" = JSNum.nan from rfl] at hn
      exact JSNum.noConfusion hn
    rw [effTTL_ofNum s q hs hn, int32_of_inrange _ (by omega) hlt]
    omega

theorem ttl_clamp_amended_witness :
    ("abc" : String) ≠ "" ∧ numberOfString "abc" = JSNum.nan ∧
    effectiveTTL (some "abc") = 10 :=
  ⟨by decide, rfl, (ttl_clamp_amended "abc" 0).2.2.2.2.1 (by decide) rfl⟩

/-- C10: the TTL coercion truncates to a 32-bit signed integer before the
clamp: fractional values truncate toward zero (10.5 gives 10, 120.9 gives
120), a non-numeric value becomes 0 and hence the floor 10 (not the
default 60), and truncated values in [2^31, 2^32) wrap modulo 2^32 to a
negative number, so ttl=2147483648 yields 10. -/
theorem ttl_int32_semantics (s : String) (q : ℚ) :
    effectiveTTL (some "10.5") = 10 ∧
    effectiveTTL (some "120.9") = 120 ∧
    effectiveTTL (some "abc") = 10 ∧
    effectiveTTL (some "2147483648") = 10 ∧
    (s ≠ "" → numberOfString s = JSNum.nan → effectiveTTL (some s) = 10) ∧
    (numberOfString s = JSNum.num q → 2^31 ≤ ratTrunc q → ratTrunc q < 2^32 →
       effectiveTTL (some s) = 10) := by
  refine ⟨?_, ?_, rfl, ?_, ?_, ?_⟩
  · have h : numberOfString "10.5"
        = JSNum.num (((10:ℕ) : ℚ) + ((5:ℕ) : ℚ) / (10:ℚ) ^ (1:ℕ)) := rfl
    rw [effTTL_ofNum "10.5" _ (by decide) h, ratTrunc_decimal 10 5 1 (by norm_num)]
    decide
  · have h : numberOfString "120.9"
        = JSNum.num (((120:ℕ) : ℚ) + ((9:ℕ) : ℚ) / (10:ℚ) ^ (1:ℕ)) := rfl
    rw [effTTL_ofNum "120.9" _ (by decide) h, ratTrunc_decimal 120 9 1 (by norm_num)]
    decide
  · have h : numberOfString "2147483648" = JSNum.num ((2147483648:ℕ) : ℚ) := rfl
    rw [effTTL_ofNum _ _ (by decide) h, ratTrunc_natCast]
    decide
  · exact fun hs hn => effTTL_ofNan s hs hn
  · intro hn hge hlt
    have hs : s ≠ "" := by
      intro h; subst h
      rw [show numberOfString "" = JSNum.nan from rfl] at hn
      exact JSNum.noConfusion hn
    rw [effTTL_ofNum s q hs hn, int32_of_high _ hge hlt]
    omega

theorem ttl_int32_semantics_witness :
    numberOfString "4294967295" = JSNum.num ((4294967295:ℕ) : ℚ) ∧
    effectiveTTL (some "4294967295") = 10 :=
  ⟨rfl, (ttl_int32_semantics "4294967295" ((4294967295:ℕ) : ℚ)).2.2.2.2.2 rfl
      (by rw [ratTrunc_natCast]; decide) (by rw [ratTrunc_natCast]; decide)⟩

/-- C7: the cache key never incorporates the `apiKey` entry: inserting an
`apiKey` entry with any value anywhere in the query leaves the key
character-for-character identical to the credential-free key (hence any
substring occurrence in the key is one the credential-free key already
has), and the key depends only on the credential-stripped query. -/
theorem cacheKey_credential_free (path : String) (q₁ q₂ : List (String × String))
    (v secret : String) :
    cacheKey path (q₁ ++ ("apiKey", v) :: q₂) = cacheKey path (q₁ ++ q₂) ∧
    (∀ q : List (String × String),
        cacheKey path q = cacheKey path (q.filter (fun p => p.1 != "apiKey"))) ∧
    occursIn secret (cacheKey path (q₁ ++ ("apiKey", v) :: q₂))
      = occursIn secret (cacheKey path (q₁ ++ q₂)) := by
  refine ⟨cacheKey_apiKey_drop path q₁ q₂ v, ?_, ?_⟩
  · intro q
    unfold cacheKey
    rw [filter_stripKey_idem]
  · rw [cacheKey_apiKey_drop path q₁ q₂ v]

/-- C4: on any internal fault of a cold-key request — upstream transport
failure, or a 2xx body whose JSON parse fails, or a throwing collection
filter — all three handlers return 500 with body
`\x7b"error":"Proxy error"\x7d` and the 10-second error headers, and leave
the cache store unchanged. -/
theorem proxy_internal_fault :
    (∀ (req : OddsQuery) (mem : Cache) (now : Int) (up : UpstreamOutcome),
       cacheGet mem (oddsKey req) = none →
       (up = .transportFail ∨
         (∃ status text, 200 ≤ status ∧ status < 300 ∧ up = .response status text none) ∨
         (∃ status text j, 200 ≤ status ∧ status < 300 ∧
            up = .response status text (some j) ∧ filterToNY j = .error ())) →
       handlerOdds req mem now up = (proxyError, mem)) ∧
    (∀ (req : EventQuery) (mem : Cache) (now : Int) (up : UpstreamOutcome),
       cacheGet mem (eventKey req) = none →
       (up = .transportFail ∨
         ∃ status text, 200 ≤ status ∧ status < 300 ∧ up = .response status text none) →
       handlerEventWrap req mem now up = (proxyError, mem)) ∧
    (∀ (req : EventQuery) (mem : Cache) (now : Int) (up : UpstreamOutcome),
       cacheGet mem (eventKey req) = none →
       (up = .transportFail ∨
         ∃ status text, 200 ≤ status ∧ status < 300 ∧ up = .response status text none) →
       handlerEventFilter req mem now up = (proxyError, mem)) ∧
    proxyError.status = 500 ∧ proxyError.body = "\x7b\"error\":\"Proxy error\"\x7d" ∧
    proxyError.headers = setCachingHeaders 10 := by
  refine ⟨?_, ?_, ?_, rfl, rfl, rfl⟩
  · intro req mem now up hmiss hfault
    unfold handlerOdds
    rw [runProxy_miss _ _ _ _ _ _ _ hmiss]
    apply proxyFetch_fault
    rcases hfault with h | ⟨status, text, h2, h3, h⟩ | ⟨status, text, j, h2, h3, h, herr⟩
    · exact Or.inl h
    · refine Or.inr ⟨status, text, none, h, ?_⟩
      rw [responseBody_2xx _ _ _ _ h2 h3]
      rfl
    · refine Or.inr ⟨status, text, some j, h, ?_⟩
      rw [responseBody_2xx _ _ _ _ h2 h3]
      unfold transformCollection
      dsimp only
      rw [herr]
      rfl
  · intro req mem now up hmiss hfault
    unfold handlerEventWrap
    rw [runProxy_miss _ _ _ _ _ _ _ hmiss]
    apply proxyFetch_fault
    rcases hfault with h | ⟨status, text, h2, h3, h⟩
    · exact Or.inl h
    · refine Or.inr ⟨status, text, none, h, ?_⟩
      rw [responseBody_2xx _ _ _ _ h2 h3]
      rfl
  · intro req mem now up hmiss hfault
    unfold handlerEventFilter
    rw [runProxy_miss _ _ _ _ _ _ _ hmiss]
    apply proxyFetch_fault
    rcases hfault with h | ⟨status, text, h2, h3, h⟩
    · exact Or.inl h
    · refine Or.inr ⟨status, text, none, h, ?_⟩
      rw [responseBody_2xx _ _ _ _ h2 h3]
      rfl

theorem proxy_internal_fault_witness :
    cacheGet [] (oddsKey reqSample) = none ∧
    handlerOdds reqSample [] 0 .transportFail = (proxyError, []) :=
  ⟨rfl, proxy_internal_fault.1 reqSample [] 0 .transportFail rfl (Or.inl rfl)⟩

/-- C5: a non-2xx upstream response is passed through to the client with
the exact status and untouched body text, is written to the cache, and a
repeat request for the same key within the TTL is answered from the cache
with the stored status and body — independently of the upstream (no
second upstream call), leaving the cache unchanged. -/
theorem upstream_error_passthrough (req : OddsQuery) (mem : Cache)
    (now now' : Int) (status : Nat) (text : String) (parsed : Option Json)
    (up' : UpstreamOutcome)
    (hmiss : cacheGet mem (oddsKey req) = none)
    (hst : ¬ (200 ≤ status ∧ status < 300))
    (hfresh : freshQ now' now (effectiveTTL req.ttl)) :
    handlerOdds req mem now (.response status text parsed)
      = ({ status := status, body := text,
           headers := setCachingHeaders (effectiveTTL req.ttl) },
         cacheSet mem (oddsKey req) { ts := now, status := status, body := text }) ∧
    handlerOdds req
        (cacheSet mem (oddsKey req) { ts := now, status := status, body := text }) now' up'
      = ({ status := status, body := text,
           headers := setCachingHeaders (effectiveTTL req.ttl) },
         cacheSet mem (oddsKey req) { ts := now, status := status, body := text }) := by
  constructor
  · unfold handlerOdds
    rw [runProxy_miss _ _ _ _ _ _ _ hmiss,
      proxyFetch_ok _ _ _ _ _ _ _ _ _ (responseBody_passthrough transformCollection _ _ _ hst)]
    rfl
  · unfold handlerOdds
    rw [runProxy_hit _ _ _ _ _ _ _ _
      (cacheGet_cacheSet mem (oddsKey req) { ts := now, status := status, body := text }) hfresh]

theorem upstream_error_passthrough_witness :
    cacheGet [] (oddsKey reqSample) = none ∧
    ¬ (200 ≤ 404 ∧ 404 < 300) ∧
    freshQ 5000 0 (effectiveTTL reqSample.ttl) ∧
    (handlerOdds reqSample [] 0 (.response 404 notFoundBody none)
       = ({ status := 404, body := notFoundBody,
            headers := setCachingHeaders (effectiveTTL reqSample.ttl) },
          cacheSet [] (oddsKey reqSample) { ts := 0, status := 404, body := notFoundBody }) ∧
     handlerOdds reqSample
         (cacheSet [] (oddsKey reqSample) { ts := 0, status := 404, body := notFoundBody })
         5000 .transportFail
       = ({ status := 404, body := notFoundBody,
            headers := setCachingHeaders (effectiveTTL reqSample.ttl) },
          cacheSet [] (oddsKey reqSample) { ts := 0, status := 404, body := notFoundBody })) :=
  ⟨rfl, by decide,
   (freshQ_iff 5000 0 (effectiveTTL reqSample.ttl)).mpr (by rw [show effectiveTTL reqSample.ttl = 60 from effTTL_none]; decide),
   upstream_error_passthrough reqSample [] 0 5000 404 notFoundBody none .transportFail
     rfl (by decide)
     ((freshQ_iff 5000 0 (effectiveTTL reqSample.ttl)).mpr (by rw [show effectiveTTL reqSample.ttl = 60 from effTTL_none]; decide))⟩

/-- C6: with an entry present for the key, the request is served from the
cache exactly when (now − entry.ts)/1000 < TTL — returning the stored
status and body unchanged and leaving the cache untouched — and otherwise
triggers a fresh upstream fetch whose (non-faulting) outcome is stored
with timestamp `now` and returned. -/
theorem cache_freshness (req : OddsQuery) (mem : Cache) (now : Int)
    (up : UpstreamOutcome) (hit : CacheEntry)
    (hhit : cacheGet mem (oddsKey req) = some hit) :
    (freshQ now hit.ts (effectiveTTL req.ttl) →
       handlerOdds req mem now up
         = ({ status := hit.status, body := hit.body,
              headers := setCachingHeaders (effectiveTTL req.ttl) }, mem)) ∧
    (¬ freshQ now hit.ts (effectiveTTL req.ttl) →
       ∀ status text parsed body,
         up = .response status text parsed →
         responseBody transformCollection status text parsed = .ok body →
         handlerOdds req mem now up
           = ({ status := status, body := body,
                headers := setCachingHeaders (effectiveTTL req.ttl) },
              cacheSet mem (oddsKey req) { ts := now, status := status, body := body })) ∧
    (freshQ now hit.ts (effectiveTTL req.ttl) ↔
       ((now - hit.ts : ℤ) : ℚ) / 1000 < ((effectiveTTL req.ttl : ℤ) : ℚ)) := by
  refine ⟨?_, ?_, Iff.rfl⟩
  · intro hfresh
    unfold handlerOdds
    rw [runProxy_hit _ _ _ _ _ _ _ _ hhit hfresh]
  · intro hstale status text parsed body hup hbody
    subst hup
    unfold handlerOdds
    rw [runProxy_stale _ _ _ _ _ _ _ _ hhit hstale,
      proxyFetch_ok _ _ _ _ _ _ _ _ _ hbody]
    rfl

theorem cache_freshness_witness :
    cacheGet [(oddsKey reqSample, { ts := 0, status := 404, body := notFoundBody })]
        (oddsKey reqSample) = some { ts := 0, status := 404, body := notFoundBody } ∧
    freshQ 1000 0 (effectiveTTL reqSample.ttl) ∧
    handlerOdds reqSample
        [(oddsKey reqSample, { ts := 0, status := 404, body := notFoundBody })] 1000
        .transportFail
      = ({ status := 404, body := notFoundBody,
           headers := setCachingHeaders (effectiveTTL reqSample.ttl) },
         [(oddsKey reqSample, { ts := 0, status := 404, body := notFoundBody })]) :=
  ⟨rfl,
   (freshQ_iff 1000 0 (effectiveTTL reqSample.ttl)).mpr (by rw [show effectiveTTL reqSample.ttl = 60 from effTTL_none]; decide),
   (cache_freshness reqSample
       [(oddsKey reqSample, { ts := 0, status := 404, body := notFoundBody })] 1000
       .transportFail { ts := 0, status := 404, body := notFoundBody } rfl).1
     ((freshQ_iff 1000 0 (effectiveTTL reqSample.ttl)).mpr (by rw [show effectiveTTL reqSample.ttl = 60 from effTTL_none]; decide))⟩

/-- C9: a 2xx upstream body that parses to JSON which is not an array is
coerced by the collection transform to the empty array: the proxy replies
with the upstream status and body "[]" (and caches that), instead of
raising an error. -/
theorem collection_nonarray_empty (req : OddsQuery) (mem : Cache) (now : Int)
    (status : Nat) (text : String) (j : Json)
    (hmiss : cacheGet mem (oddsKey req) = none)
    (h2 : 200 ≤ status) (h3 : status < 300)
    (hj : ∀ xs : List Json, j ≠ Json.arr xs) :
    handlerOdds req mem now (.response status text (some j))
      = ({ status := status, body := "[]",
           headers := setCachingHeaders (effectiveTTL req.ttl) },
         cacheSet mem (oddsKey req) { ts := now, status := status, body := "[]" }) := by
  have hfil : filterToNY j = .ok [] := by
    cases j with
    | arr xs => exact absurd rfl (hj xs)
    | null => rfl
    | bool b => rfl
    | num q => rfl
    | str s => rfl
    | obj fs => rfl
  have hbody : responseBody transformCollection status text (some j) = .ok "[]" := by
    rw [responseBody_2xx _ _ _ _ h2 h3]
    unfold transformCollection
    dsimp only
    rw [hfil]
    rfl
  unfold handlerOdds
  rw [runProxy_miss _ _ _ _ _ _ _ hmiss, proxyFetch_ok _ _ _ _ _ _ _ _ _ hbody]
  rfl

theorem collection_nonarray_empty_witness :
    cacheGet [] (oddsKey reqSample) = none ∧
    (∀ xs : List Json, Json.null ≠ Json.arr xs) ∧
    handlerOdds reqSample [] 0 (.response 200 "null" (some Json.null))
      = ({ status := 200, body := "[]",
           headers := setCachingHeaders (effectiveTTL reqSample.ttl) },
         cacheSet [] (oddsKey reqSample) { ts := 0, status := 200, body := "[]" }) :=
  ⟨rfl, fun _ h => Json.noConfusion h,
   collection_nonarray_empty reqSample [] 0 200 "null" Json.null rfl (by decide) (by decide)
     (fun _ h => Json.noConfusion h)⟩

/-- C1: for a 2xx upstream response whose body parses as a JSON array of
events (on which the filter does not throw), the collection endpoint keeps
in each retained event only bookmakers whose title is in the allow-list,
drops every event whose filtered bookmaker list is empty (and keeps every
event whose filtered list is non-empty), serializes the resulting —
possibly empty — array back to JSON text, caches it, and returns it with
the upstream status. -/
theorem collection_2xx_filters (req : OddsQuery) (mem : Cache) (now : Int)
    (status : Nat) (text : String) (evts out : List Json)
    (hmiss : cacheGet mem (oddsKey req) = none)
    (h2 : 200 ≤ status) (h3 : status < 300)
    (hok : filterToNY (Json.arr evts) = .ok out) :
    handlerOdds req mem now (.response status text (some (Json.arr evts)))
      = ({ status := status, body := stringify (Json.arr out),
           headers := setCachingHeaders (effectiveTTL req.ttl) },
         cacheSet mem (oddsKey req)
           { ts := now, status := status, body := stringify (Json.arr out) }) ∧
    (∀ e ∈ out, ∃ books : List Json,
        getField e "bookmakers" = some (Json.arr books) ∧ books ≠ [] ∧
        ∀ b ∈ books, isAllowedBook b = true) ∧
    (∀ evt ∈ evts, ∀ books, filterBooks evt = .ok books → books ≠ [] →
        Json.obj (setField (spreadFields evt) "bookmakers" (Json.arr books)) ∈ out) := by
  obtain ⟨mapped, hm, hout⟩ := filterToNY_arr evts out hok
  have hfa := mapM_ok_forall₂ evts mapped hm
  refine ⟨?_, ?_, ?_⟩
  · have hbody : responseBody transformCollection status text (some (Json.arr evts))
        = .ok (stringify (Json.arr out)) := by
      rw [responseBody_2xx _ _ _ _ h2 h3]
      unfold transformCollection
      dsimp only
      rw [hok]
      rfl
    unfold handlerOdds
    rw [runProxy_miss _ _ _ _ _ _ _ hmiss, proxyFetch_ok _ _ _ _ _ _ _ _ _ hbody]
    rfl
  · intro e he
    rw [hout] at he
    have hmem := List.mem_filter.mp he
    obtain ⟨evt, hevt, htr⟩ := forall₂_mem_right hfa e hmem.1
    obtain ⟨books, hfb, hte⟩ := transformEvt_ok evt e htr
    refine ⟨books, ?_, ?_, filterBooks_allowed evt books hfb⟩
    · rw [hte]
      exact getField_setField _ _ _
    · have hk := hmem.2
      rw [hte, keepEvt_setField] at hk
      intro hnil
      subst hnil
      simp at hk
  · intro evt hevt books hfb hne
    obtain ⟨t, ht, htr⟩ := forall₂_mem_left hfa evt hevt
    have hX : transformEvt evt
        = .ok (Json.obj (setField (spreadFields evt) "bookmakers" (Json.arr books))) := by
      unfold transformEvt
      rw [hfb]
      rfl
    rw [hX] at htr
    injection htr with hEq
    rw [hout]
    refine List.mem_filter.mpr ⟨hEq ▸ ht, ?_⟩
    rw [keepEvt_setField]
    simpa using List.length_pos.mpr hne

theorem collection_2xx_filters_witness :
    cacheGet [] (oddsKey reqSample) = none ∧
    filterToNY (Json.arr [evtSample, evtNoNY])
      = .ok [Json.obj [("home", Json.str "NYG"), ("bookmakers", Json.arr [bmFanDuel])]] ∧
    (handlerOdds reqSample [] 0
        (.response 200 "x" (some (Json.arr [evtSample, evtNoNY])))).1.body
      = stringify (Json.arr
          [Json.obj [("home", Json.str "NYG"), ("bookmakers", Json.arr [bmFanDuel])]]) :=
  ⟨rfl, rfl,
   by rw [(collection_2xx_filters reqSample [] 0 200 "x" [evtSample, evtNoNY]
       [Json.obj [("home", Json.str "NYG"), ("bookmakers", Json.arr [bmFanDuel])]]
       rfl (by decide) (by decide) rfl).1]⟩

/-- C8: the collection transform is frame- and order-preserving: the
retained events are a sublist (in order) of the per-event transforms of
the input sequence, and each transformed event keeps every field other
than `bookmakers` unchanged and in its original position, while its
retained bookmakers are an order-preserving sublist of the original
bookmaker sequence. -/
theorem filter_frame_order (evts out : List Json)
    (hok : filterToNY (Json.arr evts) = .ok out) :
    (∃ tr : List Json,
        List.Forall₂ (fun evt t => transformEvt evt = Except.ok t) evts tr ∧
        out.Sublist tr) ∧
    (∀ (fs : List (String × Json)) (bs : List Json) (t : Json),
        getField (Json.obj fs) "bookmakers" = some (Json.arr bs) →
        transformEvt (Json.obj fs) = Except.ok t →
        t = Json.obj (setField fs "bookmakers" (Json.arr (bs.filter isAllowedBook))) ∧
        (bs.filter isAllowedBook).Sublist bs ∧
        (setField fs "bookmakers" (Json.arr (bs.filter isAllowedBook))).filter
            (fun p => p.1 != "bookmakers")
          = fs.filter (fun p => p.1 != "bookmakers")) := by
  obtain ⟨mapped, hm, hout⟩ := filterToNY_arr evts out hok
  constructor
  · refine ⟨mapped, mapM_ok_forall₂ evts mapped hm, ?_⟩
    rw [hout]
    exact List.filter_sublist mapped
  · intro fs bs t hgf htr
    have hX := transformEvt_obj fs bs hgf
    rw [hX] at htr
    injection htr with hEq
    exact ⟨hEq.symm, List.filter_sublist bs, setField_filter_ne fs _ _⟩

theorem filter_frame_order_witness :
    filterToNY (Json.arr [evtSample])
      = .ok [Json.obj [("home", Json.str "NYG"), ("bookmakers", Json.arr [bmFanDuel])]] ∧
    ∃ tr : List Json,
      List.Forall₂ (fun evt t => transformEvt evt = Except.ok t) [evtSample] tr ∧
      List.Sublist [Json.obj [("home", Json.str "NYG"), ("bookmakers", Json.arr [bmFanDuel])]] tr :=
  ⟨rfl,
   (filter_frame_order [evtSample]
       [Json.obj [("home", Json.str "NYG"), ("bookmakers", Json.arr [bmFanDuel])]] rfl).1⟩

/-- C2 counterexample: the src/api/events/[id].js variant of the
single-event endpoint does not filter bookmakers at all — on a 2xx
response it wraps the parsed event unchanged in a one-element array, so a
non-allow-listed bookmaker (title "Bet365") survives in the response
body, refuting "the transform filters the event's bookmakers to the
allow-list" for that handler. -/
theorem single_wrap_unfiltered_cex :
    (handlerEventWrap ereqSample [] 0 (.response 200 "t" (some evtNoNY))).1.body
      = stringify (Json.arr [evtNoNY]) ∧
    getField evtNoNY "bookmakers" = some (Json.arr [bmBet365]) ∧
    isAllowedBook bmBet365 = false ∧
    stringify (Json.arr [evtNoNY]) ≠ stringify (Json.arr [filterEventToNY evtNoNY]) :=
  ⟨rfl, rfl, rfl, by decide⟩

/-- C2 (amended): in the filterEventToNY variant (src/unnamed/part_000)
of the single-event endpoint, a 2xx response is transformed by filtering
the event's bookmakers to the allow-list while always retaining the event
itself — a missing or non-array bookmakers field is replaced by the empty
list — and that transform result is serialized, cached and returned; the
other variant (src/api/events/[id].js) instead wraps the event unfiltered
in a one-element array. -/
theorem single_filter_amended (req : EventQuery) (mem : Cache) (now : Int)
    (status : Nat) (text : String) (j : Json)
    (hmiss : cacheGet mem (eventKey req) = none)
    (h2 : 200 ≤ status) (h3 : status < 300) :
    handlerEventFilter req mem now (.response status text (some j))
      = ({ status := status, body := stringify (filterEventToNY j),
           headers := setCachingHeaders (effectiveTTL req.ttl) },
         cacheSet mem (eventKey req)
           { ts := now, status := status, body := stringify (filterEventToNY j) }) ∧
    (∃ books : List Json,
        filterEventToNY j
          = Json.obj (setField (spreadFields j) "bookmakers" (Json.arr books)) ∧
        (∀ b ∈ books, isAllowedBook b = true) ∧
        (∀ bs, getField j "bookmakers" = some (Json.arr bs) →
            books = bs.filter isAllowedBook) ∧
        (isBookmakersArray j = false → books = [])) ∧
    (∀ j' : Json, transformSingleWrap (some j') = .ok (stringify (Json.arr [j']))) := by
  refine ⟨?_, ?_, fun _ => rfl⟩
  · have hbody : responseBody transformSingleFilter status text (some j)
        = .ok (stringify (filterEventToNY j)) := by
      rw [responseBody_2xx _ _ _ _ h2 h3]
      rfl
    unfold handlerEventFilter
    rw [runProxy_miss _ _ _ _ _ _ _ hmiss, proxyFetch_ok _ _ _ _ _ _ _ _ _ hbody]
    rfl
  · rcases filterEventToNY_cases j with ⟨hbf, heq⟩ | ⟨bs, hbs, heq⟩
    · refine ⟨[], heq, by simp, ?_, fun _ => rfl⟩
      intro bs hbs
      exact absurd ((isBookmakersArray_iff j).mpr ⟨bs, hbs⟩) (by rw [hbf]; simp)
    · refine ⟨bs.filter isAllowedBook, heq, ?_, ?_, ?_⟩
      · intro b hb
        exact List.of_mem_filter hb
      · intro bs' hbs'
        rw [hbs] at hbs'
        injection hbs' with hsome
        injection hsome with harr
        rw [harr]
      · intro hf
        exact absurd ((isBookmakersArray_iff j).mpr ⟨bs, hbs⟩) (by rw [hf]; simp)

theorem single_filter_amended_witness :
    cacheGet [] (eventKey ereqSample) = none ∧
    (handlerEventFilter ereqSample [] 0 (.response 200 "t" (some evtNoNY))).1.body
      = stringify (filterEventToNY evtNoNY) :=
  ⟨rfl,
   by rw [(single_filter_amended ereqSample [] 0 200 "t" evtNoNY rfl
       (by decide) (by decide)).1]⟩
